import Mathlib

/-!
Verification of the document-structure-extraction core of `elt_llm_rag`.

This file shallowly embeds the relevant parts of
`elt_llm_ingest/preprocessor.py` and `elt_llm_ingest/doc_leanix_parser.py`
into Lean, and proves or refutes the frozen claims about them.

Conventions of the embedding:
* Python strings are Lean `String`s; helpers named `py...` mirror the exact
  Python primitive they model (`str.strip`, `str.split`, `str.lower`, ...).
  Case folding and the whitespace/character classes are modelled over the
  ASCII range, which covers every character the source's own patterns can
  match (`[A-Za-z0-9\s/\-'\"]` and friends are ASCII-only classes).
* The regular expressions of the source are embedded as explicit regex
  syntax trees and matched with a Brzozowski-derivative matcher; the
  concrete trees are written to mirror the source patterns one for one.
* Python dicts are association lists in insertion order; `dictSet` models
  `d[k] = v` (update in place, append if new), `alookup` models `d.get(k)`.
* Fallible Python code is modelled with `Option`/`Except`.
-/

namespace EltLlmRag

/-! ## Python string primitives -/

/-- The whitespace set of Python's `str.strip` / `str.split` and of the
regex class `\s` (ASCII range). -/
def pyIsSpace (c : Char) : Bool :=
  c = ' ' || c = '\t' || c = '\n' || c = '\x0b' || c = '\x0c' || c = '\r'

/-- ASCII lower-casing, modelling `str.lower` on the ASCII terms produced by
the source's extraction patterns. -/
def pyLowerChar (c : Char) : Char :=
  if 'A' ≤ c ∧ c ≤ 'Z' then Char.ofNat (c.toNat + 32) else c

/-- ASCII upper-casing, modelling `str.upper`. -/
def pyUpperChar (c : Char) : Char :=
  if 'a' ≤ c ∧ c ≤ 'z' then Char.ofNat (c.toNat - 32) else c

def pyLower (s : String) : String := ⟨s.data.map pyLowerChar⟩

def pyUpper (s : String) : String := ⟨s.data.map pyUpperChar⟩

/-- Strip characters satisfying `p` from both ends of a list. -/
def stripCharsL (p : Char → Bool) (l : List Char) : List Char :=
  ((l.dropWhile p).reverse.dropWhile p).reverse

/-- `str.strip()` (no argument: strips whitespace). -/
def pyStrip (s : String) : String := ⟨stripCharsL pyIsSpace s.data⟩

/-- `str.strip(chars)` for a one-character `chars` set. -/
def pyStripChar (c : Char) (s : String) : String := ⟨stripCharsL (· = c) s.data⟩

/-- Split on a single separator character, keeping empty pieces:
the semantics of Python's `str.split(sep)` for a one-character `sep`. -/
def splitCharL (sep : Char) : List Char → List (List Char)
  | [] => [[]]
  | c :: cs =>
    match splitCharL sep cs with
    | [] => [[]]
    | g :: gs => if c = sep then [] :: g :: gs else (c :: g) :: gs

/-- `str.split("\n")`. -/
def pySplitNL (s : String) : List String :=
  (splitCharL '\n' s.data).map (fun l => ⟨l⟩)

/-- Split on runs of whitespace, dropping empty pieces:
the semantics of Python's argument-less `str.split()`. -/
def splitWsL (l : List Char) : List (List Char) :=
  ((splitCharL ' ' (l.map (fun c => if pyIsSpace c then ' ' else c))).filter
    (fun g => ¬ g.isEmpty))

def pySplitWs (s : String) : List String := (splitWsL s.data).map (fun l => ⟨l⟩)

/-- `" ".join(s.split())`: whitespace collapsing as used throughout the
source. -/
def collapseWs (s : String) : String := String.intercalate " " (pySplitWs s)

/-- `sub in s`: substring containment. -/
def isPrefixOfL : List Char → List Char → Bool
  | [], _ => true
  | _ :: _, [] => false
  | c :: cs, d :: ds => c = d && isPrefixOfL cs ds

def isInfixOfL (pat : List Char) : List Char → Bool
  | [] => pat.isEmpty
  | c :: cs => isPrefixOfL pat (c :: cs) || isInfixOfL pat cs

def pyIn (sub s : String) : Bool := isInfixOfL sub.data s.data

/-- `s.replace(pat, rep)` (all non-overlapping occurrences, left to right),
written with explicit fuel so that it is structurally recursive; one unit of
fuel is consumed per emitted/consumed source position, so `fuel = length`
always suffices. -/
def replFuel : Nat → List Char → List Char → List Char → List Char
  | 0, _, _, s => s
  | _ + 1, _, _, [] => []
  | n + 1, pat, rep, c :: cs =>
    if pat ≠ [] ∧ isPrefixOfL pat (c :: cs) then
      rep ++ replFuel n pat rep (List.drop pat.length (c :: cs))
    else
      c :: replFuel n pat rep cs

def pyReplace (s pat rep : String) : String :=
  ⟨replFuel s.data.length pat.data rep.data s.data⟩

/-! ## A small regex engine (Brzozowski derivatives)

The source's patterns are embedded as explicit syntax trees.  `matchL`
decides whole-string membership; `re.match` (prefix-anchored) is modelled
by appending `.star anyCls`. -/

inductive Rx where
  | void
  | eps
  | cls (p : Char → Bool)
  | seq (a b : Rx)
  | alt (a b : Rx)
  | star (a : Rx)

namespace Rx

/-- Smart sequencing constructor: absorbs `void`, cancels `eps`.
Language-preserving; keeps derivatives small. -/
def rseq : Rx → Rx → Rx
  | void, _ => void
  | _, void => void
  | eps, b => b
  | a, eps => a
  | a, b => seq a b

/-- Smart alternation constructor: drops `void`. -/
def ralt : Rx → Rx → Rx
  | void, b => b
  | a, void => a
  | a, b => alt a b

def nullable : Rx → Bool
  | void => false
  | eps => true
  | cls _ => false
  | seq a b => nullable a && nullable b
  | alt a b => nullable a || nullable b
  | star _ => true

def deriv : Rx → Char → Rx
  | void, _ => void
  | eps, _ => void
  | cls p, c => if p c then eps else void
  | seq a b, c =>
    if nullable a then ralt (rseq (deriv a c) b) (deriv b c)
    else rseq (deriv a c) b
  | alt a b, c => ralt (deriv a c) (deriv b c)
  | star a, c => rseq (deriv a c) (star a)

/-- Whole-string matching. -/
def matchL (r : Rx) : List Char → Bool
  | [] => nullable r
  | c :: cs => matchL (deriv r c) cs

/-- `r+` -/
def plus (r : Rx) : Rx := seq r (star r)

/-- `r?` -/
def opt (r : Rx) : Rx := alt eps r

/-- A literal string as a regex. -/
def lit (s : String) : Rx := s.data.foldr (fun c r => seq (cls (· = c)) r) eps

end Rx

/-- Whole-string match of a pattern written with `^...$`. -/
def rxFull (r : Rx) (s : String) : Bool := r.matchL s.data

/-- Prefix-anchored match: the semantics of `re.match` for a pattern with no
trailing `$`. -/
def rxMatchStart (r : Rx) (s : String) : Bool :=
  (Rx.seq r (Rx.star (Rx.cls fun _ => true))).matchL s.data

/-! ## The `RegulatoryPDFPreprocessor` patterns -/

/-- The class `[A-Z\s'/&,\-]` of `_HEADER_PATTERN`. -/
def capsCls (c : Char) : Bool :=
  ('A' ≤ c && c ≤ 'Z') || pyIsSpace c || c = '\'' || c = '/' || c = '&' || c = ',' || c = '-'

def digitCls (c : Char) : Bool := '0' ≤ c && c ≤ '9'

/-- The class `[-–]` (hyphen or en-dash). -/
def dashCls (c : Char) : Bool := c = '-' || c = '–'

def wsStar : Rx := .star (.cls pyIsSpace)

/-- `_HEADER_PATTERN`: `^(?:\d+\s*[-–]\s*[A-Z\s'/&,\-]+|[A-Z\s'/&,\-]+\s*[-–]\s*[A-Z\s'/&,\-]+)$` -/
def headerRx : Rx :=
  .alt
    (.seq (Rx.plus (.cls digitCls))
      (.seq wsStar (.seq (.cls dashCls) (.seq wsStar (Rx.plus (.cls capsCls))))))
    (.seq (Rx.plus (.cls capsCls))
      (.seq wsStar (.seq (.cls dashCls) (.seq wsStar (Rx.plus (.cls capsCls))))))

def headerMatch (s : String) : Bool := rxFull headerRx s

/-- `_NOISE_LINES`:
`^(?:RETURN TO CONTENTS PAGE|DEFINITION\s+INTERPRETATION|CONTENTS|SECTION\s+PAGE)\s*$` -/
def noiseRx : Rx :=
  .seq
    (.alt (Rx.lit "RETURN TO CONTENTS PAGE")
      (.alt (.seq (Rx.lit "DEFINITION") (.seq (Rx.plus (.cls pyIsSpace)) (Rx.lit "INTERPRETATION")))
        (.alt (Rx.lit "CONTENTS")
          (.seq (Rx.lit "SECTION") (.seq (Rx.plus (.cls pyIsSpace)) (Rx.lit "PAGE"))))))
    wsStar

def noiseMatch (s : String) : Bool := rxFull noiseRx s

/-- `\d{1,4}` -/
def digits14 : Rx :=
  .seq (.cls digitCls)
    (Rx.opt (.seq (.cls digitCls) (Rx.opt (.seq (.cls digitCls) (Rx.opt (.cls digitCls))))))

/-- `^\d{1,4}$` -/
def pageNumMatch (s : String) : Bool := rxFull digits14 s

/-- `^\d{1,4}\s+\d+\s*[-–]` (prefix match: no trailing `$` in the source). -/
def pageNumPrefixRx : Rx :=
  .seq digits14
    (.seq (Rx.plus (.cls pyIsSpace))
      (.seq (Rx.plus (.cls digitCls)) (.seq wsStar (.cls dashCls))))

def pageNumPrefixMatch (s : String) : Bool := rxMatchStart pageNumPrefixRx s

/-! ## Association lists modelling Python dicts (insertion order) -/

/-- `d.get(k)`. -/
def alookup {κ α : Type} [BEq κ] (d : List (κ × α)) (k : κ) : Option α :=
  (d.find? (fun kv => kv.1 == k)).map (·.2)

/-- `d[k] = v`: replaces the value in place when the key exists, appends
otherwise (Python dicts preserve insertion order). -/
def dictSet {κ α : Type} [BEq κ] (d : List (κ × α)) (k : κ) (v : α) : List (κ × α) :=
  if (alookup d k).isSome then
    d.map (fun kv => if kv.1 == k then (k, v) else kv)
  else d ++ [(k, v)]

/-! ## The XML document model

`xml.etree.ElementTree` elements, as a mutual inductive so that all
recursion over documents is structural (and hence computes by `rfl`).
`iterTag` models `element.iter(tag)` (pre-order, the element itself
included); `find` models `element.find(tag)` (direct children only). -/

mutual
inductive XmlNode : Type where
  | mk (tag : String) (attrs : List (String × String)) (children : XmlForest)
deriving Repr
inductive XmlForest : Type where
  | nil
  | cons (head : XmlNode) (tail : XmlForest)
deriving Repr
end

def XmlNode.tag : XmlNode → String
  | .mk t _ _ => t

def XmlNode.attrs : XmlNode → List (String × String)
  | .mk _ a _ => a

/-- `element.get(key)` (attribute lookup). -/
def XmlNode.get (n : XmlNode) (k : String) : Option String := alookup n.attrs k

/-- `element.get(key, default)`. -/
def XmlNode.getD (n : XmlNode) (k d : String) : String := (n.get k).getD d

/-- Python truthiness of an attribute (`if not obj.get(key)`): present and
non-empty. -/
def hasTruthyAttr (n : XmlNode) (k : String) : Bool :=
  match n.get k with
  | some s => s ≠ ""
  | none => false

def XmlForest.toList : XmlForest → List XmlNode
  | .nil => []
  | .cons n f => n :: f.toList

def XmlForest.ofList : List XmlNode → XmlForest
  | [] => .nil
  | n :: ns => .cons n (XmlForest.ofList ns)

def XmlNode.children : XmlNode → List XmlNode
  | .mk _ _ f => f.toList

/-- `element.find(tag)`: first direct child with the given tag. -/
def XmlNode.find (n : XmlNode) (tag : String) : Option XmlNode :=
  n.children.find? (fun c => c.tag == tag)

mutual
/-- `element.iter(tag)`: document-order traversal, self included. -/
def XmlNode.iterTag (tag : String) : XmlNode → List XmlNode
  | .mk t a cs =>
    (if t = tag then [XmlNode.mk t a cs] else []) ++ XmlForest.iterTag tag cs
def XmlForest.iterTag (tag : String) : XmlForest → List XmlNode
  | .nil => []
  | .cons n f => XmlNode.iterTag tag n ++ XmlForest.iterTag tag f
end

/-! ## `doc_leanix_parser.LeanIXExtractor`: data records -/

/-- `LeanIXAsset`.  The geometry fields hold the raw attribute strings; the
source's `float(...)` conversion is not modelled because no claim and no
downstream rendering reads the numeric values.  `style` is always set to a
string by `parse_asset` (`mxcell.get('style', '')`). -/
structure LeanIXAsset where
  id : String
  label : String
  fact_sheet_type : String
  fact_sheet_id : String
  parent_group : Option String
  parent_id : Option String
  x : Option String
  y : Option String
  width : Option String
  height : Option String
  style : String
  raw_attributes : List (String × String)
deriving Repr, DecidableEq

/-- `LeanIXRelationship`.  `style` is always set to a string by
`parse_relationship`. -/
structure LeanIXRelationship where
  id : String
  source_id : String
  target_id : String
  source_label : Option String
  target_label : Option String
  relationship_type : Option String
  cardinality : Option String
  style : String
deriving Repr, DecidableEq

/-! ## `clean_label` -/

def dropToGt : List Char → Option (List Char)
  | [] => none
  | c :: cs => if c = '>' then some cs else dropToGt cs

/-- On the characters after a `<`: if the regex `<[^>]+>` matches here,
return the characters after the closing `>`. -/
def findTagClose : List Char → Option (List Char)
  | [] => none
  | c :: cs => if c = '>' then none else dropToGt cs

/-- `re.sub(r'<[^>]+>', '', label)`: left-to-right removal of tags.  Written
with fuel (one unit per consumed source position) to stay structurally
recursive; `fuel = length` always suffices. -/
def stripTagsFuel : Nat → List Char → List Char
  | 0, s => s
  | _ + 1, [] => []
  | n + 1, c :: cs =>
    if c = '<' then
      match findTagClose cs with
      | some rest => stripTagsFuel n rest
      | none => c :: stripTagsFuel n cs
    else c :: stripTagsFuel n cs

def stripTags (l : List Char) : List Char := stripTagsFuel l.length l

/-- `LeanIXExtractor.clean_label`. -/
def clean_label (label : String) : String :=
  if label = "" then ""
  else
    let l := (⟨stripTags label.data⟩ : String)
    let l := pyReplace l "&amp;" "&"
    let l := pyReplace l "&lt;" "<"
    let l := pyReplace l "&gt;" ">"
    let l := pyReplace l "&nbsp;" " "
    let l := pyReplace l "&#10;" "\n"
    let l := collapseWs l
    pyStrip l

/-! ## `LeanIXExtractor` extraction passes -/

/-- Inner loop of `extract_groups`: the first `object` element whose direct
`mxCell` child has `parent == group_id` and which carries a non-empty label
and `type == 'factSheet'` (objects failing the label/type test do not stop
the scan in the source: the `break` sits inside that test). -/
def groupLabelSource (root : XmlNode) (group_id : Option String) : Option XmlNode :=
  (root.iterTag "object").find? (fun obj =>
    match obj.find "mxCell" with
    | some oc =>
      oc.get "parent" == group_id
        && obj.getD "label" "" != ""
        && obj.get "type" == some "factSheet"
    | none => false)

/-- `LeanIXExtractor.extract_groups`.  The dict key is the group cell's `id`
attribute, which Python would use as-is (possibly `None`), hence the
`Option String` key type. -/
def extract_groups (root : XmlNode) : List (Option String × String) :=
  (root.iterTag "mxCell").foldl (fun groups cell =>
    if pyIn "group" (cell.getD "style" "") && cell.get "vertex" == some "1" then
      match groupLabelSource root (cell.get "id") with
      | some obj => dictSet groups (cell.get "id") (clean_label (obj.getD "label" ""))
      | none => groups
    else groups) []

/-- `LeanIXExtractor.parse_asset`. -/
def parse_asset (groups : List (Option String × String)) (obj : XmlNode) :
    Option LeanIXAsset :=
  match obj.get "id" with
  | none => none
  | some obj_id =>
    if obj_id = "" then none
    else
      match obj.find "mxCell" with
      | none => none
      | some mxcell =>
        let geometry := mxcell.find "mxGeometry"
        let geo := fun (k : String) =>
          match geometry with
          | some g =>
            match g.get k with
            | some v => if v = "" then none else some v
            | none => none
          | none => none
        let parent_id := mxcell.get "parent"
        let parent_group := alookup groups parent_id
        let label := clean_label (obj.getD "label" "")
        some
          { id := obj_id
            label := label
            fact_sheet_type := obj.getD "factSheetType" "Unknown"
            fact_sheet_id := obj.getD "factSheetId" ""
            parent_group := parent_group
            parent_id := parent_id
            x := geo "x", y := geo "y", width := geo "width", height := geo "height"
            style := mxcell.getD "style" ""
            raw_attributes := obj.attrs }

/-- One iteration of the `extract_assets` loop
(`self.assets[asset.id] = asset`; the dataclass instance is always truthy,
so `if asset:` is `isSome`). -/
def extract_assets_step (groups : List (Option String × String))
    (assets : List (String × LeanIXAsset)) (obj : XmlNode) :
    List (String × LeanIXAsset) :=
  if obj.get "type" == some "factSheet" then
    match parse_asset groups obj with
    | some a => dictSet assets a.id a
    | none => assets
  else assets

/-- `LeanIXExtractor.extract_assets`. -/
def extract_assets (groups : List (Option String × String)) (root : XmlNode) :
    List (String × LeanIXAsset) :=
  (root.iterTag "object").foldl (extract_assets_step groups) []

/-- `LeanIXExtractor.extract_relationship_type`. -/
def extract_relationship_type (style : String) : Option String :=
  if pyIn "edgeStyle=entityRelationEdgeStyle" style then some "Entity Relationship"
  else if pyIn "edgeStyle=orthogonalEdgeStyle" style then some "Orthogonal"
  else if pyIn "edgeStyle=elbowEdgeStyle" style then some "Elbow"
  else none

/-- `LeanIXExtractor.extract_cardinality`. -/
def extract_cardinality (style : String) : Option String :=
  let startPart : List String :=
    if pyIn "startArrow=ERzeroToMany" style then ["0..*"]
    else if pyIn "startArrow=ERoneToMany" style then ["1..*"]
    else if pyIn "startArrow=ERoneToOne" style then ["1..1"]
    else if pyIn "startArrow=ERzeroToOne" style then ["0..1"]
    else []
  let endPart : List String :=
    if pyIn "endArrow=ERzeroToMany" style then ["0..*"]
    else if pyIn "endArrow=ERoneToMany" style then ["1..*"]
    else if pyIn "endArrow=ERoneToOne" style then ["1..1"]
    else if pyIn "endArrow=ERzeroToOne" style then ["0..1"]
    else []
  let cardinality_parts := startPart ++ ["-"] ++ endPart
  if cardinality_parts.length > 1 then some (String.join cardinality_parts) else none

/-- `LeanIXExtractor.parse_relationship`. -/
def parse_relationship (assets : List (String × LeanIXAsset)) (mxcell : XmlNode) :
    Option LeanIXRelationship :=
  match mxcell.get "source" with
  | none => none
  | some source_id =>
    if source_id = "" then none
    else
      match mxcell.get "target" with
      | none => none
      | some target_id =>
        if target_id = "" then none
        else if (alookup assets source_id).isNone || (alookup assets target_id).isNone then
          none
        else
          let style := mxcell.getD "style" ""
          some
            { id := mxcell.getD "id" ""
              source_id := source_id
              target_id := target_id
              source_label := none
              target_label := none
              relationship_type := extract_relationship_type style
              cardinality := extract_cardinality style
              style := style }

/-- `LeanIXExtractor.extract_relationships` (append order preserved). -/
def extract_relationships (assets : List (String × LeanIXAsset)) (root : XmlNode) :
    List LeanIXRelationship :=
  (root.iterTag "mxCell").filterMap (fun cell =>
    if cell.get "edge" == some "1" then parse_relationship assets cell else none)

/-- `LeanIXExtractor.enrich_relationships`. -/
def enrich_relationships (assets : List (String × LeanIXAsset))
    (rels : List LeanIXRelationship) : List LeanIXRelationship :=
  rels.map (fun r =>
    let r1 :=
      match alookup assets r.source_id with
      | some a => { r with source_label := some a.label }
      | none => r
    match alookup assets r1.target_id with
    | some a => { r1 with target_label := some a.label }
    | none => r1)

structure ExtractResult where
  groups : List (Option String × String)
  assets : List (String × LeanIXAsset)
  relationships : List LeanIXRelationship
deriving Repr

/-- `LeanIXExtractor.extract_all` (after `parse_xml` produced `root`). -/
def extract_all (root : XmlNode) : ExtractResult :=
  let groups := extract_groups root
  let assets := extract_assets groups root
  let rels := extract_relationships assets root
  ⟨groups, assets, enrich_relationships assets rels⟩

/-! ## `RegulatoryPDFPreprocessor` pass 1: the Page Noise Stripper

`preprocess` lines 526–574.  A page is modelled as the raw text string
`page.extract_text()` returned for it.  The `markers` field is a ghost
field: it records the header argument of every `clean_sections.append(
f"## {new_section_header}")` at the point of that append, and nothing
else; `clean_sections` and `current_section` are computed exactly as in
the source. -/

structure StripState where
  clean_sections : List String
  current_section : String
  markers : List String
deriving Repr

/-- One iteration of the inner `for line in lines` loop of pass 1.
`cur` is `current_section`, which the source does not change inside this
loop; the accumulator carries `new_section_header` and `content_lines`. -/
def stripStep (cur : String) (acc : Option String × List String) (line : String) :
    Option String × List String :=
  let stripped := pyStrip line
  if stripped = "" then acc
  else if headerMatch stripped then
    (if stripped ≠ cur then (some stripped, acc.2) else acc)
  else if noiseMatch stripped then acc
  else if pageNumMatch stripped then acc
  else if pageNumPrefixMatch stripped then acc
  else (acc.1, acc.2 ++ [stripped])

/-- The inner `for line in lines` loop of pass 1: returns the final
`new_section_header` and the collected `content_lines`. -/
def processPageLines (cur : String) (lines : List String) :
    Option String × List String :=
  lines.foldl (stripStep cur) (none, [])

/-- One iteration of the `for page_idx, page in enumerate(reader.pages)`
loop. -/
def processPage (st : StripState) (raw : String) : StripState :=
  let r := processPageLines st.current_section (pySplitNL raw)
  let st1 : StripState :=
    match r.1 with
    | some h =>
      if h ≠ "" ∧ h ≠ st.current_section then
        { clean_sections :=
            (if st.clean_sections ≠ [] then st.clean_sections ++ [""]
             else st.clean_sections) ++ ["## " ++ h]
          current_section := h
          markers := st.markers ++ [h] }
      else st
    | none => st
  { st1 with clean_sections := st1.clean_sections ++ r.2 }

/-- Pass 1 over the whole page sequence. -/
def stripPages (pages : List String) : StripState :=
  pages.foldl processPage ⟨[], "", []⟩

/-- The lines of the clean document (`clean_sections` after the page loop). -/
def cleanLines (pages : List String) : List String := (stripPages pages).clean_sections

/-- `clean_md = "\n".join(clean_sections)`. -/
def cleanMd (pages : List String) : String := String.intercalate "\n" (cleanLines pages)

/-! ## `RegulatoryPDFPreprocessor` pass 2: glossary stores and merge

A store is `term_lower → (canonical_term, defn)` in insertion order.  The
two extraction strategies (regex passes) produce streams of raw
`(term, defn)` candidates which `_collect` folds into a store; the merge
law claims are about the stores and the merge, so the candidate streams
are universally quantified rather than re-derived from the `means`
regex. -/

abbrev DefStore := List (String × String × String)

/-- `term = " ".join(term.split())` in `_collect`. -/
def normTerm (term : String) : String := collapseWs term

/-- `defn = " ".join(defn.split()).strip(";").strip()` in `_collect`. -/
def normDefn (defn : String) : String := pyStrip (pyStripChar ';' (collapseWs defn))

/-- `_collect(store, term, defn)` (preprocessor.py lines 598–604). -/
def collect (store : DefStore) (term defn : String) : DefStore :=
  let t := normTerm term
  let d := normDefn defn
  if d.length < 10 ∨ d.length > 1500 then store
  else if (alookup store (pyLower t)).isSome then store
  else store ++ [(pyLower t, t, d)]

/-- A whole extraction pass: fold `_collect` over the candidate stream. -/
def buildStore (cands : List (String × String)) : DefStore :=
  cands.foldl (fun st c => collect st c.1 c.2) []

/-- The confidence merge (preprocessor.py lines 667–675): explicit entries
first (tagged `both` when also detected), then detected-only entries. -/
def mergeStores (explicitStore detectedStore : DefStore) :
    List (String × String × String) :=
  explicitStore.map (fun e =>
    (e.2.1, e.2.2, if (alookup detectedStore e.1).isSome then "both" else "explicit"))
  ++ (detectedStore.filter (fun e => (alookup explicitStore e.1).isNone)).map
      (fun e => (e.2.1, e.2.2, "detected"))

/-- The full glossary result as a function of the two candidate streams.
In the source the detected pass runs before the explicit pass. -/
def glossaryOf (candsDetected candsExplicit : List (String × String)) :
    List (String × String × String) :=
  mergeStores (buildStore candsExplicit) (buildStore candsDetected)

/-- The first normalized spelling of the term with case-insensitive key `k`
in a candidate stream (used to state the "first-seen spelling" claim). -/
def firstSeenSpelling (cands : List (String × String)) (k : String) : Option String :=
  (cands.map (fun c => normTerm c.1)).find? (fun t => pyLower t == k)

/-- The first guard-passing candidate for key `k`: this is what a single
extraction pass stores for `k`. -/
def firstValid (cands : List (String × String)) (k : String) : Option (String × String) :=
  match cands with
  | [] => none
  | c :: rest =>
    let t := normTerm c.1
    let d := normDefn c.2
    if d.length < 10 ∨ d.length > 1500 then firstValid rest k
    else if pyLower t = k then some (t, d)
    else firstValid rest k

/-! ## `LeanIXPreprocessor.preprocess` (claim C1)

`preprocess` constructs `LeanIXExtractor(str(input_path),
model_name=self.model_name, org_name=self.org_name)` inside its
`try`/`except Exception` block, but `LeanIXExtractor.__init__` accepts only
`xml_file`.  The keyword-binding step of the Python call is modelled
explicitly; everything after the constructor call inside the `try` block is
abstracted as an arbitrary continuation `rest` (it can itself fail, which
the catch-all also converts into a failure result). -/

structure PreprocessorResult where
  original_file : String
  output_files : List String
  success : Bool
  message : Option String
  section_collection_map : Option (List (String × String))
deriving Repr

/-- The parameter names accepted by `LeanIXExtractor.__init__` beside
`self` (doc_leanix_parser.py line 55: `def __init__(self, xml_file: str)`). -/
def leanIXExtractorInitParams : List String := ["xml_file"]

/-- Python keyword binding: calling with a keyword argument whose name is
not a parameter raises `TypeError`. -/
def pyBindKwargs (params : List String) (kwargs : List (String × String)) :
    Except String Unit :=
  match kwargs.find? (fun k => ¬ params.contains k.1) with
  | some k =>
    Except.error ("__init__() got an unexpected keyword argument '" ++ k.1 ++ "'")
  | none => Except.ok ()

structure LeanIXPreprocessorCfg where
  output_format : String
  collection_prefix : Option String
  model_name : String
  org_name : String

/-- `LeanIXPreprocessor.preprocess` (preprocessor.py lines 100–193).
`rest` abstracts the body of the `try` block after the constructor call
(`parse_xml`, `extract_all`, the writes and the success results); it is
never reached because the constructor call itself raises. -/
def leanIXPreprocess (cfg : LeanIXPreprocessorCfg) (input_file output_path : String)
    (rest : String → Except String PreprocessorResult) : PreprocessorResult :=
  let attempt : Except String PreprocessorResult :=
    match pyBindKwargs leanIXExtractorInitParams
        [("model_name", cfg.model_name), ("org_name", cfg.org_name)] with
    | .error e => .error e
    | .ok _ => rest output_path
  match attempt with
  | .ok r => r
  | .error e =>
    { original_file := input_file
      output_files := []
      success := false
      message := some e
      section_collection_map := none }

/-- `LeanIXExtractor._describe_cardinality`. -/
def describe_cardinality (cardinality : Option String) : String :=
  match cardinality with
  | none => "relates to"
  | some c =>
    if c = "" then "relates to"
    else if c = "0..*-0..*" then "relates to (zero or more to zero or more)"
    else if c = "1..*-0..*" then "relates to (one or more to zero or more)"
    else if c = "0..*-1..*" then "relates to (zero or more to one or more)"
    else if c = "1..1-0..*" then "relates to (exactly one to zero or more)"
    else if c = "0..*-1..1" then "relates to (zero or more to exactly one)"
    else if c = "1..1-1..1" then "relates to (exactly one to exactly one)"
    else "relates to (" ++ c ++ ")"

/-! ## `LeanIXExtractor.to_section_files` -/

/-- `x or default` for an optional string (Python truthiness: `None` and
`''` both fall through to the default). -/
def pyOrD (o : Option String) (d : String) : String :=
  match o with
  | some s => if s = "" then d else s
  | none => d

/-- Stable insertion step for `pySortedBy`. -/
def insertSortedBy {α : Type} (le : α → α → Bool) (x : α) : List α → List α
  | [] => [x]
  | y :: ys => if le y x then y :: insertSortedBy le x ys else x :: y :: ys

/-- `sorted(xs, key=keyf)`: stable ascending sort by a string key (Python's
`str` ordering is code-point lexicographic, as is Lean's). -/
def pySortedBy {α : Type} (keyf : α → String) (xs : List α) : List α :=
  xs.foldl (fun acc x => insertSortedBy (fun a b => decide (keyf a ≤ keyf b)) x acc) []

def pySortedStr (xs : List String) : List String := pySortedBy id xs

/-- `defaultdict(list)`: `d[k].append(v)`. -/
def dictAppend {κ α : Type} [BEq κ] (d : List (κ × List α)) (k : κ) (v : α) :
    List (κ × List α) :=
  if (alookup d k).isSome then
    d.map (fun kv => if kv.1 == k then (kv.1, kv.2 ++ [v]) else kv)
  else d ++ [(k, [v])]

/-- `d.pop(k, [])`: the popped value and the remaining dict. -/
def dictPop {α : Type} (d : List (String × List α)) (k : String) :
    List α × List (String × List α) :=
  ((alookup d k).getD [], d.filter (fun kv => ¬ (kv.1 == k)))

def isLowerAlnum (c : Char) : Bool :=
  ('a' ≤ c && c ≤ 'z') || ('0' ≤ c && c ≤ '9')

/-- The run-collapsing substitution of `_sanitize_section_key`
(`re.sub(r'[^a-z0-9]+', '_', key)`), with a flag tracking whether the scan
is inside a non-alphanumeric run. -/
def subNonAlnumRuns : Bool → List Char → List Char
  | _, [] => []
  | inRun, c :: cs =>
    if isLowerAlnum c then c :: subNonAlnumRuns false cs
    else if inRun then subNonAlnumRuns true cs
    else '_' :: subNonAlnumRuns true cs

/-- `LeanIXExtractor._sanitize_section_key`. -/
def sanitize_section_key (name : String) : String :=
  pyStripChar '_' ⟨subNonAlnumRuns false (pyLower name).data⟩

/-- The extractor state fields that exist when `to_section_files` runs.
`xmlFileName` is `self.xml_file.name`. -/
structure ExtractorModel where
  xmlFileName : String
  assets : List (String × LeanIXAsset)
  groups : List (Option String × String)
  relationships : List LeanIXRelationship

/-- The keyword vocabularies of the uncategorized-entity bucketing
(doc_leanix_parser.py lines 514–525). -/
def partyKeywords : List String :=
  ["player", "club", "team", "individual", "organisation", "employee",
   "customer", "member", "official", "learner", "prospect", "supplier",
   "county", "charity", "government", "school", "authority", "candidate",
   "mentor", "developer", "household", "unit", "supporter", "attendee"]

def channelKeywords : List String :=
  ["channel", "broadcast", "streaming", "tv", "radio", "sms", "email",
   "mobile", "web", "portal", "social", "push", "live", "chat",
   "call centre", "concierge", "in person", "pos", "turnstile", "merchandise"]

structure UncatBuckets where
  party_types : List String
  channel_types : List String
  account_types : List String
  asset_types : List String
  other : List String

/-- The bucketing loop over uncategorized assets. -/
def bucketUncategorized (uncat : List LeanIXAsset) : UncatBuckets :=
  uncat.foldl (fun b asset =>
    let label := pyLower asset.label
    if partyKeywords.any (fun p => pyIn p label) then
      { b with party_types := b.party_types ++ [asset.label] }
    else if channelKeywords.any (fun c => pyIn c label) then
      { b with channel_types := b.channel_types ++ [asset.label] }
    else if pyIn "account" label then
      { b with account_types := b.account_types ++ [asset.label] }
    else if pyIn "asset" label || pyIn "data" label || pyIn "property" label then
      { b with asset_types := b.asset_types ++ [asset.label] }
    else { b with other := b.other ++ [asset.label] })
    ⟨[], [], [], [], []⟩

/-- One `**Title (N entities):** a, b, c.` block of the additional-entities
section (emitted only when the bucket is non-empty). -/
def bucketBlock (title : String) (xs : List String) : String :=
  if xs.isEmpty then ""
  else
    "**" ++ title ++ " (" ++ toString xs.length ++ " entities):** "
      ++ String.intercalate ", " (pySortedStr xs) ++ ".\n\n"

/-- The `(including ...)`-style member sample of the relationships section:
up to 12 labels plus an ellipsis marker. -/
def memberSample (assetsVals : List LeanIXAsset) (groupLabel : String) : List String :=
  pySortedStr ((assetsVals.filter (fun a =>
    a.parent_group == some groupLabel && pyUpper a.label ≠ pyUpper groupLabel)).map
      (fun a => a.label))

/-- `LeanIXExtractor.to_section_files`, as a function of the fields it
reads (`self.xml_file.name`, `self.assets`, `self.relationships`). -/
def to_section_files_core (xmlFileName : String)
    (assets : List (String × LeanIXAsset))
    (relationships : List LeanIXRelationship) : List (String × String) :=
  let assetsVals := assets.map (·.2)
  let assets_by_group :=
    assetsVals.foldl (fun d a => dictAppend d (pyOrD a.parent_group "Uncategorized") a)
      ([] : List (String × List LeanIXAsset))
  let popped := dictPop assets_by_group "Uncategorized"
  let uncategorized_assets := popped.1
  let abg := popped.2
  let domain_names := pySortedStr (abg.map (·.1))
  -- overview section
  let overviewMd :=
    "# FA Enterprise Conceptual Data Model — Overview\n\n"
      ++ "The FA Enterprise Conceptual Data Model (source: " ++ xmlFileName
      ++ ") contains " ++ toString assets.length
      ++ " DataObject entities organised into " ++ toString domain_names.length
      ++ " named domain groups: " ++ String.intercalate ", " domain_names
      ++ ". These domains are connected through " ++ toString relationships.length
      ++ " entity relationships.\n\n"
      ++ String.join (domain_names.map (fun group_name =>
          let group_assets := (alookup abg group_name).getD []
          let members := (group_assets.filter
            (fun a => pyUpper a.label ≠ pyUpper group_name)).map (fun a => a.label)
          "The **" ++ group_name ++ "** domain contains " ++ toString members.length
            ++ " entities.\n\n"))
  let sections := dictSet ([] : List (String × String)) "overview" overviewMd
  -- one section per domain
  let sections := domain_names.foldl (fun sections group_name =>
    let group_assets := pySortedBy (fun a => a.label) ((alookup abg group_name).getD [])
    let members := (group_assets.filter
      (fun a => pyUpper a.label ≠ pyUpper group_name)).map (fun a => a.label)
    let md :=
      "# " ++ group_name ++ " Domain — FA Enterprise Conceptual Data Model\n\n"
        ++ "The " ++ group_name
        ++ " domain is part of the FA Enterprise Conceptual Data Model. It contains "
        ++ toString members.length ++ " entities.\n\n"
        ++ (if ¬ members.isEmpty then
              "The entities within the " ++ group_name ++ " domain are:\n\n"
                ++ String.join (members.map (fun m => "- **" ++ m ++ "**\n")) ++ "\n"
            else "")
    let domain_rels := relationships.filter (fun r =>
      r.source_label == some group_name || r.target_label == some group_name)
    let md := md ++
      (if ¬ domain_rels.isEmpty then
        "## " ++ group_name ++ " Domain Relationships\n\n"
          ++ String.join ((pySortedBy (fun r => pyOrD r.target_label "") domain_rels).map
              (fun rel =>
                "- **" ++ pyOrD rel.source_label rel.source_id ++ "** "
                  ++ describe_cardinality rel.cardinality ++ " **"
                  ++ pyOrD rel.target_label rel.target_id ++ "**\n")) ++ "\n"
      else "")
    dictSet sections (sanitize_section_key group_name) md) sections
  -- additional entities
  let sections :=
    if ¬ uncategorized_assets.isEmpty then
      let b := bucketUncategorized uncategorized_assets
      let md :=
        "# Additional Entities — FA Enterprise Conceptual Data Model\n\n"
          ++ "The following entities are defined in the FA Enterprise Conceptual Data Model "
          ++ "and include key party, channel, account, and asset entities that form the "
          ++ "core of The Football Association's data landscape.\n\n"
          ++ bucketBlock "Party Types" b.party_types
          ++ bucketBlock "Channel Types" b.channel_types
          ++ bucketBlock "Account Types" b.account_types
          ++ bucketBlock "Asset Types" b.asset_types
          ++ bucketBlock "Other Entities" b.other
      dictSet sections "additional_entities" md
    else sections
  -- relationships
  let sections :=
    if ¬ relationships.isEmpty then
      let rels_by_source := relationships.foldl
        (fun d r => dictAppend d (pyOrD r.source_label r.source_id) r)
        ([] : List (String × List LeanIXRelationship))
      let md :=
        "# Entity Relationships — FA Enterprise Conceptual Data Model\n\n"
          ++ "This document lists all " ++ toString relationships.length
          ++ " domain-level entity relationships in the FA Enterprise Conceptual Data Model. "
          ++ "Each relationship section is self-contained: it names the source and target "
          ++ "domains, states the cardinality, and lists representative entities from each "
          ++ "domain so that any retrieved chunk carries full context.\n\n"
          ++ String.join ((pySortedStr (rels_by_source.map (·.1))).map (fun source_label =>
              String.join ((pySortedBy (fun r => pyOrD r.target_label "")
                  ((alookup rels_by_source source_label).getD [])).map (fun rel =>
                let target_label := pyOrD rel.target_label rel.target_id
                let cardinality_desc := describe_cardinality rel.cardinality
                let source_members := memberSample assetsVals source_label
                let target_members := memberSample assetsVals target_label
                "## Relationship: " ++ source_label ++ " → " ++ target_label ++ "\n\n"
                  ++ "**" ++ source_label ++ "** " ++ cardinality_desc ++ " **"
                  ++ target_label ++ "**.\n\n"
                  ++ (if ¬ source_members.isEmpty then
                        "The **" ++ source_label ++ "** domain includes entities: "
                          ++ String.intercalate ", " (source_members.take 12)
                          ++ (if source_members.length > 12 then "..." else "") ++ ".\n\n"
                      else "")
                  ++ (if ¬ target_members.isEmpty then
                        "The **" ++ target_label ++ "** domain includes entities: "
                          ++ String.intercalate ", " (target_members.take 12)
                          ++ (if target_members.length > 12 then "..." else "") ++ ".\n\n"
                      else "")))))
      dictSet sections "relationships" md
    else sections
  sections

/-- `to_section_files` as a method of the extractor state. -/
def to_section_files (m : ExtractorModel) : List (String × String) :=
  to_section_files_core m.xmlFileName m.assets m.relationships

/-! ## Concrete input documents used by counterexamples and witnesses -/

/-- Scenario A, group container 1 (a `group`-styled vertex cell). -/
def scPartyCell : XmlNode := .mk "mxCell" [("id", "g1"), ("style", "group"), ("vertex", "1")] .nil

def scProductCell : XmlNode := .mk "mxCell" [("id", "g2"), ("style", "group"), ("vertex", "1")] .nil

/-- Scenario A, the labelled container-entity of the PARTY group. -/
def scPartyObj : XmlNode :=
  .mk "object"
    [("id", "p1"), ("label", "PARTY"), ("type", "factSheet"),
     ("factSheetType", "DataObject"), ("factSheetId", "fs-party")]
    (.ofList [.mk "mxCell" [("parent", "g1"), ("vertex", "1"), ("style", "rounded=1")] .nil])

def scClubObj : XmlNode :=
  .mk "object"
    [("id", "c1"), ("label", "Club"), ("type", "factSheet"),
     ("factSheetType", "DataObject"), ("factSheetId", "fs-club")]
    (.ofList [.mk "mxCell" [("parent", "g1"), ("vertex", "1"), ("style", "rounded=1")] .nil])

def scProductObj : XmlNode :=
  .mk "object"
    [("id", "p2"), ("label", "PRODUCT"), ("type", "factSheet"),
     ("factSheetType", "DataObject"), ("factSheetId", "fs-product")]
    (.ofList [.mk "mxCell" [("parent", "g2"), ("vertex", "1"), ("style", "rounded=1")] .nil])

def scMembershipObj : XmlNode :=
  .mk "object"
    [("id", "m1"), ("label", "Membership"), ("type", "factSheet"),
     ("factSheetType", "DataObject"), ("factSheetId", "fs-mem")]
    (.ofList [.mk "mxCell" [("parent", "g2"), ("vertex", "1"), ("style", "rounded=1")] .nil])

/-- Scenario A, the Club→Membership edge with a `1..1` start arrow and a
`0..*` end arrow. -/
def scEdgeCell : XmlNode :=
  .mk "mxCell"
    [("id", "e1"), ("edge", "1"), ("source", "c1"), ("target", "m1"),
     ("style", "edgeStyle=entityRelationEdgeStyle;startArrow=ERoneToOne;endArrow=ERzeroToMany;")]
    .nil

/-- The Scenario A document. -/
def scenarioA : XmlNode :=
  .mk "mxGraphModel" []
    (.ofList [scPartyCell, scPartyObj, scClubObj, scProductCell, scProductObj,
              scMembershipObj, scEdgeCell])

/-- The single relationship Scenario A produces. -/
def scARel : LeanIXRelationship :=
  { id := "e1", source_id := "c1", target_id := "m1"
    source_label := some "Club", target_label := some "Membership"
    relationship_type := some "Entity Relationship"
    cardinality := some "1..1-0..*"
    style := "edgeStyle=entityRelationEdgeStyle;startArrow=ERoneToOne;endArrow=ERzeroToMany;" }

/-- A `factSheet` object node with an id and an `mxCell` child but neither a
label nor a `factSheetId` (claim C3). -/
def c3obj : XmlNode :=
  .mk "object" [("id", "n1"), ("type", "factSheet")] (.ofList [.mk "mxCell" [] .nil])

def c3root : XmlNode := .mk "mxGraphModel" [] (.ofList [c3obj])

/-- The asset `extract_all` returns for `c3root`. -/
def c3entry : String × LeanIXAsset :=
  ("n1",
    { id := "n1", label := "", fact_sheet_type := "Unknown", fact_sheet_id := ""
      parent_group := none, parent_id := none
      x := none, y := none, width := none, height := none
      style := "", raw_attributes := [("id", "n1"), ("type", "factSheet")] })

/-- A 3-page sequence in which the header `8 - RULES` recurs on pages 1 and
3 while page 2 carries the different header `9 - OTHER` (claims C2/C8). -/
def c2pages : List String :=
  ["8 - RULES\nThe first rule applies.",
   "9 - OTHER\nThe second rule applies.",
   "8 - RULES\nThe third rule applies."]

/-- Detected-pass candidates for the C7 counterexample (the detected pass
runs first in the source). -/
def c7dCands : List (String × String) := [("FOO", "0123456789")]

def c7eCands : List (String × String) := [("Foo", "0123456789")]

/-- Witness candidates: one `means`-style definition. -/
def wDefn : String := "any club which plays the game of football in England"

def wCandsE : List (String × String) :=
  [("Club", "any club which plays the game of football in England;")]

def wCandsD : List (String × String) :=
  [("CLUB", "any club which plays the game of football in England;")]

/-- A small extractor state for the C9 witness. -/
def c9model : ExtractorModel :=
  { xmlFileName := "DAT_model.xml"
    assets := (extract_all scenarioA).assets
    groups := (extract_all scenarioA).groups
    relationships := (extract_all scenarioA).relationships }

/-- The stripper invariant: the tracked section equals the most recently
emitted marker, consecutively emitted markers differ, and no emitted line
matches the header pattern. -/
def StripInv (st : StripState) : Prop :=
  st.current_section = st.markers.getLastD ""
  ∧ List.Chain' (fun a b => a ≠ b) st.markers
  ∧ ∀ l ∈ st.clean_sections, headerMatch l = false

/-! # Lemmas -/

theorem Rx.matchL_void (s : List Char) : Rx.matchL Rx.void s = false := by
  induction s with
  | nil => rfl
  | cons c cs ih => simp [Rx.matchL, Rx.deriv, ih]

/-- A `## `-prefixed section marker never matches the header pattern:
`#` belongs to none of the pattern's character classes. -/
theorem headerMatch_marker (h : String) : headerMatch ("## " ++ h) = false := by
  have hd : ("## " ++ h).data = '#' :: '#' :: ' ' :: h.data := by
    simp [String.data_append]
  simp only [headerMatch, rxFull, hd, Rx.matchL]
  have hder : Rx.deriv headerRx '#' = Rx.void := rfl
  rw [hder]
  exact Rx.matchL_void _

theorem headerMatch_empty : headerMatch "" = false := rfl

/-- Each line-loop step either leaves the collected content untouched or
appends a line that failed the header test. -/
theorem stripStep_content (cur : String) (acc : Option String × List String)
    (line l : String) (hl : l ∈ (stripStep cur acc line).2) :
    l ∈ acc.2 ∨ headerMatch l = false := by
  simp only [stripStep] at hl
  split_ifs at hl with h1 h2 h3 h4 h5 h6
  · exact Or.inl hl
  · exact Or.inl hl
  · exact Or.inl hl
  · exact Or.inl hl
  · exact Or.inl hl
  · exact Or.inl hl
  · rcases List.mem_append.mp hl with h | h
    · exact Or.inl h
    · have he : l = pyStrip line := List.mem_singleton.mp h
      subst he
      exact Or.inr (Bool.eq_false_iff.mpr h2)

theorem foldl_stripStep_content (cur : String) (lines : List String) :
    ∀ acc : Option String × List String, (∀ l ∈ acc.2, headerMatch l = false) →
      ∀ l ∈ (lines.foldl (stripStep cur) acc).2, headerMatch l = false := by
  induction lines with
  | nil => intro acc h l hl; exact h l hl
  | cons x xs ih =>
    intro acc h l hl
    refine ih (stripStep cur acc x) ?_ l hl
    intro m hm
    rcases stripStep_content cur acc x m hm with h1 | h2
    · exact h m h1
    · exact h2

theorem processPageLines_content (cur : String) (lines : List String) :
    ∀ l ∈ (processPageLines cur lines).2, headerMatch l = false :=
  foldl_stripStep_content cur lines (none, []) (by intro l hl; cases hl)

theorem chain'_ne_concat {l : List String} {x : String}
    (hc : List.Chain' (fun a b => a ≠ b) l) (hx : l.getLastD "" ≠ x) :
    List.Chain' (fun a b => a ≠ b) (l ++ [x]) := by
  rw [List.chain'_append]
  refine ⟨hc, List.chain'_singleton x, ?_⟩
  intro a ha b hb
  have ha' : l.getLastD "" = a := by
    rw [List.getLastD_eq_getLast?]
    rw [Option.mem_def] at ha
    rw [ha]
    rfl
  have hb' : b = x := by
    simp at hb
    exact hb.symm
  rw [← ha', hb']
  exact hx

theorem processPage_inv (st : StripState) (raw : String) (h : StripInv st) :
    StripInv (processPage st raw) := by
  obtain ⟨hcur, hchain, hlines⟩ := h
  have hcontent := processPageLines_content st.current_section (pySplitNL raw)
  unfold processPage
  cases hnsh : (processPageLines st.current_section (pySplitNL raw)).1 with
  | none =>
    simp only [hnsh]
    refine ⟨hcur, hchain, ?_⟩
    intro l hl
    dsimp only at hl
    rcases List.mem_append.mp hl with h | h
    · exact hlines l h
    · exact hcontent l h
  | some hdr =>
    simp only [hnsh]
    split_ifs with hc hcs
    · -- marker emitted, previous clean_sections non-empty
      refine ⟨?_, ?_, ?_⟩
      · dsimp only
        rw [List.getLastD_concat]
      · dsimp only
        refine chain'_ne_concat hchain ?_
        rw [← hcur]
        exact fun e => hc.2 e.symm
      · intro l hl
        dsimp only at hl
        rcases List.mem_append.mp hl with h | h
        · rcases List.mem_append.mp h with h' | h'
          · rcases List.mem_append.mp h' with h'' | h''
            · exact hlines l h''
            · have he : l = "" := List.mem_singleton.mp h''
              subst he; exact headerMatch_empty
          · have he : l = "## " ++ hdr := List.mem_singleton.mp h'
            subst he; exact headerMatch_marker hdr
        · exact hcontent l h
    · -- marker emitted, previous clean_sections empty
      refine ⟨?_, ?_, ?_⟩
      · dsimp only
        rw [List.getLastD_concat]
      · dsimp only
        refine chain'_ne_concat hchain ?_
        rw [← hcur]
        exact fun e => hc.2 e.symm
      · intro l hl
        dsimp only at hl
        rcases List.mem_append.mp hl with h | h
        · rcases List.mem_append.mp h with h' | h'
          · exact hlines l h'
          · have he : l = "## " ++ hdr := List.mem_singleton.mp h'
            subst he; exact headerMatch_marker hdr
        · exact hcontent l h
    · -- no marker emitted
      refine ⟨hcur, hchain, ?_⟩
      intro l hl
      dsimp only at hl
      rcases List.mem_append.mp hl with h | h
      · exact hlines l h
      · exact hcontent l h

theorem stripPages_inv (pages : List String) : StripInv (stripPages pages) := by
  have main : ∀ st, StripInv st → StripInv (pages.foldl processPage st) := by
    induction pages with
    | nil => intro st h; exact h
    | cons p ps ih => intro st h; exact ih _ (processPage_inv st p h)
  exact main ⟨[], "", []⟩ ⟨rfl, List.chain'_nil, by intro l hl; cases hl⟩

/-! # Claim theorems -/

/-- **C1** (confirmed).  For every configuration, input file, output path
and remainder of the `try` block, `LeanIXPreprocessor.preprocess` returns a
`PreprocessorResult` with `success = False` and `output_files = []`: the
`LeanIXExtractor(..., model_name=..., org_name=...)` call binds keyword
arguments that `LeanIXExtractor.__init__` (which accepts only `xml_file`)
does not take, the `TypeError` is caught by the catch-all handler, and the
failure result is returned. -/
theorem claim_C1_preprocess_always_fails (cfg : LeanIXPreprocessorCfg)
    (input_file output_path : String)
    (rest : String → Except String PreprocessorResult) :
    (leanIXPreprocess cfg input_file output_path rest).success = false
    ∧ (leanIXPreprocess cfg input_file output_path rest).output_files = [] :=
  ⟨rfl, rfl⟩

/-- **C2** (code bug).  On a 3-page input whose pages carry the headers
`8 - RULES`, `9 - OTHER`, `8 - RULES`, the Page Noise Stripper emits the
`## 8 - RULES` marker twice — the source deduplicates a header only
against the currently tracked section, so a header text whose occurrences
are separated by a page carrying a different header yields a second marker,
contrary to the claim (and to the source's own comment that a single `##`
marker is emitted per unique header). -/
theorem claim_C2_marker_emitted_twice :
    cleanLines c2pages =
      ["## 8 - RULES", "The first rule applies.", "", "## 9 - OTHER",
       "The second rule applies.", "", "## 8 - RULES", "The third rule applies."]
    ∧ (cleanLines c2pages).count "## 8 - RULES" = 2
    ∧ (stripPages c2pages).markers = ["8 - RULES", "9 - OTHER", "8 - RULES"]
    ∧ headerMatch "8 - RULES" = true := by
  refine ⟨by decide, by decide, by decide, by decide⟩

/-- **C3** (counterexample).  A `factSheet` object node with an id and an
`mxCell` child but neither a label nor a `factSheetId` is *not* excluded:
`extract_all` returns exactly one Entity for `c3root`, and that Entity has
an empty label and an empty external identifier, refuting "every returned
Entity has a non-empty label or a non-empty external identifier". -/
theorem claim_C3_counterexample :
    (extract_all c3root).assets.map (fun kv => (kv.2.label, kv.2.fact_sheet_id))
      = [("", "")]
    ∧ (extract_all c3root).assets.length = 1 := by
  refine ⟨by decide, by decide⟩

/-- **C4** (counterexample).  On the Scenario A document the Entity set is
*not* `{Club, Membership}`: the group container-entities `PARTY` and
`PRODUCT` are themselves `factSheet` objects and are returned as Entities
too. -/
theorem claim_C4_counterexample :
    (extract_all scenarioA).assets.map (fun kv => kv.2.label)
      = ["PARTY", "Club", "PRODUCT", "Membership"]
    ∧ ¬ ("PARTY" = "Club" ∨ "PARTY" = "Membership") := by
  refine ⟨by decide, by decide⟩

/-- **C4** (amended).  On the Scenario A document the extractor returns
Groups = {PARTY, PRODUCT}, Entities = {PARTY, Club, PRODUCT, Membership}
(the two group container-entities included), and a single Relationship
Club→Membership whose cardinality pair `1..1-0..*` renders as
"relates to (exactly one to zero or more)". -/
theorem claim_C4_amended :
    (extract_all scenarioA).groups.map (·.2) = ["PARTY", "PRODUCT"]
    ∧ (extract_all scenarioA).assets.map (fun kv => kv.2.label)
        = ["PARTY", "Club", "PRODUCT", "Membership"]
    ∧ (extract_all scenarioA).relationships = [scARel]
    ∧ describe_cardinality scARel.cardinality
        = "relates to (exactly one to zero or more)" := by
  refine ⟨by decide, by decide, by decide, by decide⟩

/-- **C8** (confirmed).  For every page sequence: consecutively emitted
section markers are never identical, and no line of the reconstructed
clean document — in particular no body content line — matches the header
pattern. -/
theorem claim_C8_header_suppression (pages : List String) :
    List.Chain' (fun a b => a ≠ b) (stripPages pages).markers
    ∧ ∀ l ∈ cleanLines pages, headerMatch l = false := by
  obtain ⟨h1, h2, h3⟩ := stripPages_inv pages
  exact ⟨h2, h3⟩

/-- Witness for C8 at the concrete 3-page input. -/
theorem claim_C8_witness :
    List.Chain' (fun a b => a ≠ b) (stripPages c2pages).markers
    ∧ headerMatch "The first rule applies." = false :=
  ⟨(claim_C8_header_suppression c2pages).1,
   (claim_C8_header_suppression c2pages).2 "The first rule applies." (by decide)⟩

/-- If `parse_relationship` returns a relationship, both endpoint ids
resolve in the assets table. -/
theorem parse_relationship_some (assets : List (String × LeanIXAsset))
    (cell : XmlNode) (r : LeanIXRelationship)
    (h : parse_relationship assets cell = some r) :
    (alookup assets r.source_id).isSome = true
    ∧ (alookup assets r.target_id).isSome = true := by
  unfold parse_relationship at h
  cases hs : cell.get "source" with
  | none => rw [hs] at h; exact absurd h (by simp)
  | some source_id =>
    rw [hs] at h
    dsimp only at h
    by_cases h1 : source_id = ""
    · rw [if_pos h1] at h; exact absurd h (by simp)
    · rw [if_neg h1] at h
      cases ht : cell.get "target" with
      | none => rw [ht] at h; exact absurd h (by simp)
      | some target_id =>
        rw [ht] at h
        dsimp only at h
        by_cases h2 : target_id = ""
        · rw [if_pos h2] at h; exact absurd h (by simp)
        · rw [if_neg h2] at h
          by_cases h3 : ((alookup assets source_id).isNone
              || (alookup assets target_id).isNone) = true
          · rw [if_pos h3] at h; exact absurd h (by simp)
          · rw [if_neg h3] at h
            have hr := Option.some.inj h
            subst hr
            dsimp only
            rw [Bool.or_eq_true] at h3
            push_neg at h3
            constructor
            · cases ho : alookup assets source_id with
              | none => exact absurd (by simp [ho]) h3.1
              | some v => simp
            · cases ho : alookup assets target_id with
              | none => exact absurd (by simp [ho]) h3.2
              | some v => simp

/-- Enrichment only rewrites the denormalized labels; endpoint ids are
unchanged. -/
theorem enrich_preserves_ids (assets : List (String × LeanIXAsset))
    (rels : List LeanIXRelationship) (r' : LeanIXRelationship)
    (h : r' ∈ enrich_relationships assets rels) :
    ∃ r ∈ rels, r'.source_id = r.source_id ∧ r'.target_id = r.target_id := by
  rcases List.mem_map.mp h with ⟨r, hr, heq⟩
  refine ⟨r, hr, ?_, ?_⟩ <;>
  · subst heq
    cases h1 : alookup assets r.source_id <;> cases h2 : alookup assets r.target_id <;>
      simp [enrich_relationships, h1, h2]

theorem extract_relationships_mem (assets : List (String × LeanIXAsset))
    (root : XmlNode) (r : LeanIXRelationship)
    (h : r ∈ extract_relationships assets root) :
    ∃ cell, parse_relationship assets cell = some r := by
  rcases List.mem_filterMap.mp h with ⟨cell, _, hcell⟩
  split at hcell
  · exact ⟨cell, hcell⟩
  · simp at hcell

/-- **C6** (confirmed).  For every parsed document, every returned
Relationship's `source_id` and `target_id` are keys of the returned Entity
table; connector cells whose endpoints do not resolve produce no
Relationship (they are filtered to `none`, not an error). -/
theorem claim_C6_edge_validity (root : XmlNode) (r : LeanIXRelationship)
    (hr : r ∈ (extract_all root).relationships) :
    (alookup (extract_all root).assets r.source_id).isSome = true
    ∧ (alookup (extract_all root).assets r.target_id).isSome = true := by
  simp only [extract_all] at hr ⊢
  rcases enrich_preserves_ids _ _ _ hr with ⟨r0, hr0, hsid, htid⟩
  rcases extract_relationships_mem _ _ _ hr0 with ⟨cell, hcell⟩
  have hps := parse_relationship_some _ _ _ hcell
  rw [hsid, htid]
  exact hps

/-- Witness for C6 at the Scenario A document. -/
theorem claim_C6_witness :
    scARel ∈ (extract_all scenarioA).relationships
    ∧ (alookup (extract_all scenarioA).assets scARel.source_id).isSome = true
    ∧ (alookup (extract_all scenarioA).assets scARel.target_id).isSome = true :=
  ⟨by decide, claim_C6_edge_validity scenarioA scARel (by decide)⟩

/-! ## Association-list and store lemmas -/

theorem alookup_eq_none {α : Type} (d : List (String × α)) (k : String) :
    alookup d k = none ↔ ∀ kv ∈ d, kv.1 ≠ k := by
  unfold alookup
  rw [Option.map_eq_none']
  rw [List.find?_eq_none]
  constructor
  · intro h kv hkv
    have := h kv hkv
    simpa using this
  · intro h kv hkv
    simpa using h kv hkv

theorem alookup_append {α : Type} (d e : List (String × α)) (k : String) :
    alookup (d ++ e) k
      = match alookup d k with
        | some v => some v
        | none => alookup e k := by
  unfold alookup
  rw [List.find?_append]
  cases h : List.find? (fun kv => kv.1 == k) d <;> simp [Option.orElse, h]

theorem alookup_singleton {α : Type} (k0 k : String) (v : α) :
    alookup [(k0, v)] k = if k0 = k then some v else none := by
  unfold alookup
  by_cases h : k0 = k
  · subst h; simp [List.find?]
  · have hb : (k0 == k) = false := by simpa using h
    simp [List.find?, hb, h]

theorem alookup_mem {α : Type} {d : List (String × α)} {k : String} {v : α}
    (h : alookup d k = some v) : (k, v) ∈ d := by
  unfold alookup at h
  rcases Option.map_eq_some'.mp h with ⟨kv, hfind, hv⟩
  have hmem := List.mem_of_find?_eq_some hfind
  have hkey : kv.1 = k := by
    have := List.find?_some hfind
    simpa using this
  have hkv : kv = (k, v) := by
    cases kv
    simp_all
  rwa [hkv] at hmem

theorem mem_alookup {α : Type} {d : List (String × α)}
    (hnd : (d.map (·.1)).Nodup) {k : String} {v : α} (h : (k, v) ∈ d) :
    alookup d k = some v := by
  induction d with
  | nil => cases h
  | cons e rest ih =>
    rw [List.map_cons] at hnd
    have hnd' := List.nodup_cons.mp hnd
    rcases List.mem_cons.mp h with he | hr
    · subst he
      unfold alookup
      simp [List.find?]
    · have hne : e.1 ≠ k := by
        intro hek
        exact hnd'.1 (hek ▸ List.mem_map.mpr ⟨(k, v), hr, rfl⟩)
      unfold alookup
      rw [List.find?_cons]
      have hb : (e.1 == k) = false := by simpa using hne
      rw [hb]
      exact ih hnd'.2 hr

theorem alookup_isSome_iff {α : Type} (d : List (String × α)) (k : String) :
    (alookup d k).isSome = true ↔ k ∈ d.map (·.1) := by
  unfold alookup
  rw [Option.isSome_map']
  rw [List.find?_isSome]
  constructor
  · rintro ⟨kv, hkv, hp⟩
    exact List.mem_map.mpr ⟨kv, hkv, by simpa using hp⟩
  · intro h
    rcases List.mem_map.mp h with ⟨kv, hkv, hk⟩
    exact ⟨kv, hkv, by simpa using hk⟩

theorem mem_dictSet {κ α : Type} [BEq κ] {d : List (κ × α)} {k : κ} {v : α}
    {kv : κ × α} (h : kv ∈ dictSet d k v) : kv ∈ d ∨ kv = (k, v) := by
  unfold dictSet at h
  split_ifs at h
  · rcases List.mem_map.mp h with ⟨e, he, heq⟩
    revert heq
    split_ifs with h1
    · intro heq; exact Or.inr heq.symm
    · intro heq; exact Or.inl (heq ▸ he)
  · rcases List.mem_append.mp h with h1 | h1
    · exact Or.inl h1
    · exact Or.inr (List.mem_singleton.mp h1)

/-- The three possible outcomes of a `_collect` call. -/
theorem collect_cases (st : DefStore) (term defn : String) :
    collect st term defn = st
    ∨ (alookup st (pyLower (normTerm term)) = none
       ∧ ¬ ((normDefn defn).length < 10 ∨ (normDefn defn).length > 1500)
       ∧ collect st term defn
          = st ++ [(pyLower (normTerm term), normTerm term, normDefn defn)]) := by
  simp only [collect]
  split_ifs with h1 h2
  · exact Or.inl rfl
  · exact Or.inl rfl
  · exact Or.inr ⟨Option.not_isSome_iff_eq_none.mp h2, h1, rfl⟩

theorem buildStore_go_keys_nodup (cands : List (String × String)) :
    ∀ st : DefStore, (st.map (·.1)).Nodup →
      ((cands.foldl (fun st c => collect st c.1 c.2) st).map (·.1)).Nodup := by
  induction cands with
  | nil => intro st h; exact h
  | cons c rest ih =>
    intro st h
    rw [List.foldl_cons]
    refine ih _ ?_
    rcases collect_cases st c.1 c.2 with he | ⟨hn, _, he⟩
    · rw [he]; exact h
    · rw [he, List.map_append]
      refine List.Nodup.append h (List.nodup_singleton _) ?_
      intro a ha hb
      simp only [List.map_cons, List.map_nil, List.mem_singleton] at hb
      subst hb
      rw [alookup_eq_none] at hn
      rcases List.mem_map.mp ha with ⟨kv, hkv, hk⟩
      exact hn kv hkv hk

/-- The case-insensitive keys of an extraction pass's store are distinct. -/
theorem buildStore_keys_nodup (cands : List (String × String)) :
    ((buildStore cands).map (·.1)).Nodup :=
  buildStore_go_keys_nodup cands [] (by simp)

/-- Every store entry keys the lower-cased canonical term and respects the
10–1500-character guard. -/
theorem buildStore_entry_inv (cands : List (String × String)) :
    ∀ e ∈ buildStore cands,
      e.1 = pyLower e.2.1 ∧ 10 ≤ e.2.2.length ∧ e.2.2.length ≤ 1500 := by
  suffices h : ∀ st : DefStore,
      (∀ e ∈ st, e.1 = pyLower e.2.1 ∧ 10 ≤ e.2.2.length ∧ e.2.2.length ≤ 1500) →
      ∀ e ∈ cands.foldl (fun st c => collect st c.1 c.2) st,
        e.1 = pyLower e.2.1 ∧ 10 ≤ e.2.2.length ∧ e.2.2.length ≤ 1500 by
    exact h [] (by intro e he; cases he)
  induction cands with
  | nil => intro st h; exact h
  | cons c rest ih =>
    intro st h
    rw [List.foldl_cons]
    refine ih _ ?_
    rcases collect_cases st c.1 c.2 with he | ⟨_, hg, he⟩
    · rw [he]; exact h
    · rw [he]
      intro e he'
      rcases List.mem_append.mp he' with h1 | h1
      · exact h e h1
      · have hee : e = (pyLower (normTerm c.1), normTerm c.1, normDefn c.2) :=
          List.mem_singleton.mp h1
        subst hee
        push_neg at hg
        exact ⟨rfl, hg.1, hg.2⟩

theorem alookup_foldl_collect (cands : List (String × String)) :
    ∀ (st : DefStore) (k : String),
      alookup (cands.foldl (fun st c => collect st c.1 c.2) st) k
        = match alookup st k with
          | some v => some v
          | none => firstValid cands k := by
  induction cands with
  | nil =>
    intro st k
    cases h : alookup st k <;> simp [firstValid, h]
  | cons c rest ih =>
    intro st k
    rw [List.foldl_cons, ih]
    by_cases h1 : (normDefn c.2).length < 10 ∨ (normDefn c.2).length > 1500
    · have hc : collect st c.1 c.2 = st := by
        simp only [collect]; rw [if_pos h1]
      have hf : firstValid (c :: rest) k = firstValid rest k := by
        simp only [firstValid]; rw [if_pos h1]
      rw [hc, hf]
    · have hfv : firstValid (c :: rest) k
          = if pyLower (normTerm c.1) = k then some (normTerm c.1, normDefn c.2)
            else firstValid rest k := by
        simp only [firstValid]; rw [if_neg h1]
      by_cases h2 : (alookup st (pyLower (normTerm c.1))).isSome
      · have hc : collect st c.1 c.2 = st := by
          simp only [collect]; rw [if_neg h1, if_pos h2]
        rw [hc, hfv]
        by_cases h3 : pyLower (normTerm c.1) = k
        · simp only [if_pos h3]
          rw [h3] at h2
          cases h4 : alookup st k with
          | none => rw [h4] at h2; simp at h2
          | some v => rfl
        · simp only [if_neg h3]
      · have hc : collect st c.1 c.2
            = st ++ [(pyLower (normTerm c.1), normTerm c.1, normDefn c.2)] := by
          simp only [collect]; rw [if_neg h1, if_neg h2]
        rw [hc, hfv, alookup_append, alookup_singleton]
        by_cases h3 : pyLower (normTerm c.1) = k
        · rw [h3] at h2
          have h5 : alookup st k = none := Option.not_isSome_iff_eq_none.mp h2
          simp [h5, if_pos h3]
        · simp only [if_neg h3]
          cases h4 : alookup st k <;> rfl

/-- What a single extraction pass stores for a key is its first
guard-passing candidate with that key. -/
theorem alookup_buildStore (cands : List (String × String)) (k : String) :
    alookup (buildStore cands) k = firstValid cands k := by
  have h := alookup_foldl_collect cands [] k
  simpa [buildStore, alookup] using h

theorem map_fst_filter_key (D : DefStore) (p : String → Bool) :
    ((D.filter (fun e => p e.1)).map (·.1)) = (D.map (·.1)).filter p := by
  induction D with
  | nil => rfl
  | cons e rest ih => by_cases h : p e.1 <;> simp [h, ih]

/-! ## Merge lemmas -/

theorem glossary_keys_eq (candsD candsE : List (String × String)) :
    (glossaryOf candsD candsE).map (fun e => pyLower e.1)
      = (buildStore candsE).map (·.1)
        ++ ((buildStore candsD).map (·.1)).filter
            (fun k => (alookup (buildStore candsE) k).isNone) := by
  unfold glossaryOf mergeStores
  rw [List.map_append, List.map_map, List.map_map]
  congr 1
  · refine List.map_congr_left ?_
    intro e he
    have := (buildStore_entry_inv candsE e he).1
    simp only [Function.comp]
    exact this.symm
  · rw [← map_fst_filter_key (buildStore candsD)
      (fun k => (alookup (buildStore candsE) k).isNone)]
    refine List.map_congr_left ?_
    intro e he
    have hmem := List.mem_of_mem_filter he
    have := (buildStore_entry_inv candsD e hmem).1
    simp only [Function.comp]
    exact this.symm

theorem glossary_keys_nodup (candsD candsE : List (String × String)) :
    ((glossaryOf candsD candsE).map (fun e => pyLower e.1)).Nodup := by
  rw [glossary_keys_eq]
  refine List.Nodup.append (buildStore_keys_nodup candsE)
    ((buildStore_keys_nodup candsD).filter _) ?_
  intro k hkE hkF
  have hkn := List.of_mem_filter hkF
  have hkS : (alookup (buildStore candsE) k).isSome = true :=
    (alookup_isSome_iff _ k).mpr hkE
  rw [Option.isNone_iff_eq_none] at hkn
  rw [Option.not_isSome_iff_eq_none.symm] at hkn
  exact hkn hkS

theorem glossary_mem_explicit (candsD candsE : List (String × String))
    (k t d : String) (h : alookup (buildStore candsE) k = some (t, d)) :
    ((alookup (buildStore candsD) k).isSome = true
      → (t, d, "both") ∈ glossaryOf candsD candsE)
    ∧ ((alookup (buildStore candsD) k).isNone = true
      → (t, d, "explicit") ∈ glossaryOf candsD candsE) := by
  have hmem : (k, t, d) ∈ buildStore candsE := alookup_mem h
  constructor
  · intro hD
    unfold glossaryOf mergeStores
    refine List.mem_append_left _ ?_
    refine List.mem_map.mpr ⟨(k, t, d), hmem, ?_⟩
    simp only
    rw [if_pos hD]
  · intro hD
    unfold glossaryOf mergeStores
    refine List.mem_append_left _ ?_
    refine List.mem_map.mpr ⟨(k, t, d), hmem, ?_⟩
    simp only
    rw [if_neg (by simp [Option.isNone_iff_eq_none.mp hD])]

theorem glossary_mem_detected (candsD candsE : List (String × String))
    (k t d : String) (hE : alookup (buildStore candsE) k = none)
    (hD : alookup (buildStore candsD) k = some (t, d)) :
    (t, d, "detected") ∈ glossaryOf candsD candsE := by
  have hmem : (k, t, d) ∈ buildStore candsD := alookup_mem hD
  unfold glossaryOf mergeStores
  refine List.mem_append_right _ ?_
  refine List.mem_map.mpr ⟨(k, t, d), ?_, rfl⟩
  refine List.mem_filter.mpr ⟨hmem, ?_⟩
  simp [hE]

/-- Every merged entry comes from the explicit store, or from the detected
store for a key the explicit store lacks. -/
theorem glossary_mem_inv (candsD candsE : List (String × String))
    (t d s : String) (h : (t, d, s) ∈ glossaryOf candsD candsE) :
    alookup (buildStore candsE) (pyLower t) = some (t, d)
    ∨ (alookup (buildStore candsE) (pyLower t) = none
       ∧ alookup (buildStore candsD) (pyLower t) = some (t, d)) := by
  unfold glossaryOf mergeStores at h
  rcases List.mem_append.mp h with h | h
  · rcases List.mem_map.mp h with ⟨e, he, heq⟩
    have hinv := (buildStore_entry_inv candsE e he).1
    have ht : e.2.1 = t := congrArg (fun x => x.1) heq
    have hd : e.2.2 = d := by
      have := congrArg (fun x => x.2.1) heq
      simpa using this
    left
    have hek : e.1 = pyLower t := by rw [hinv, ht]
    have hm2 : (pyLower t, t, d) ∈ buildStore candsE := by
      have he2 : e = (pyLower t, t, d) := by
        cases e with
        | mk k v =>
          cases v with
          | mk t' d' =>
            simp only at hinv ht hd hek
            subst ht
            subst hd
            rw [hek]
      rwa [he2] at he
    exact mem_alookup (buildStore_keys_nodup candsE) hm2
  · rcases List.mem_map.mp h with ⟨e, he, heq⟩
    have hef := List.mem_of_mem_filter he
    have hp := List.of_mem_filter he
    have hinv := (buildStore_entry_inv candsD e hef).1
    have ht : e.2.1 = t := congrArg (fun x => x.1) heq
    have hd : e.2.2 = d := by
      have := congrArg (fun x => x.2.1) heq
      simpa using this
    have hek : e.1 = pyLower t := by rw [hinv, ht]
    right
    constructor
    · rw [← hek]
      exact Option.isNone_iff_eq_none.mp hp
    · have hm2 : (pyLower t, t, d) ∈ buildStore candsD := by
        have he2 : e = (pyLower t, t, d) := by
          cases e with
          | mk k v =>
            cases v with
            | mk t' d' =>
              simp only at hinv ht hd hek
              subst ht
              subst hd
              rw [hek]
        rwa [he2] at hef
      exact mem_alookup (buildStore_keys_nodup candsD) hm2

/-! ## Asset lemmas -/

/-- `parse_asset` returns an asset exactly when the object has a truthy `id`
attribute and a direct `mxCell` child — labels and `factSheetId` play no
part in the decision. -/
theorem parse_asset_isSome (groups : List (Option String × String)) (obj : XmlNode) :
    (parse_asset groups obj).isSome
      = (hasTruthyAttr obj "id" && (obj.find "mxCell").isSome) := by
  unfold parse_asset hasTruthyAttr
  cases hid : obj.get "id" with
  | none => rfl
  | some obj_id =>
    dsimp only
    by_cases h1 : obj_id = ""
    · rw [if_pos h1]
      simp [h1]
    · rw [if_neg h1]
      cases hf : obj.find "mxCell" with
      | none => simp [h1]
      | some mxcell => simp [h1]

theorem parse_asset_id_ne (groups : List (Option String × String)) (obj : XmlNode)
    (a : LeanIXAsset) (h : parse_asset groups obj = some a) : a.id ≠ "" := by
  unfold parse_asset at h
  cases hid : obj.get "id" with
  | none => rw [hid] at h; exact absurd h (by simp)
  | some obj_id =>
    rw [hid] at h
    dsimp only at h
    by_cases h1 : obj_id = ""
    · rw [if_pos h1] at h; exact absurd h (by simp)
    · rw [if_neg h1] at h
      cases hf : obj.find "mxCell" with
      | none => rw [hf] at h; exact absurd h (by simp)
      | some mxcell =>
        rw [hf] at h
        dsimp only at h
        have ha := Option.some.inj h
        subst ha
        exact h1

theorem extract_assets_step_id (groups : List (Option String × String))
    (acc : List (String × LeanIXAsset)) (obj : XmlNode)
    (kv : String × LeanIXAsset) (h : kv ∈ extract_assets_step groups acc obj) :
    kv ∈ acc ∨ kv.2.id ≠ "" := by
  unfold extract_assets_step at h
  split_ifs at h
  · revert h
    cases hp : parse_asset groups obj with
    | none => intro h; exact Or.inl h
    | some a =>
      intro h
      rcases mem_dictSet h with h1 | h1
      · exact Or.inl h1
      · right
        rw [h1]
        exact parse_asset_id_ne groups obj a hp
  · exact Or.inl h

theorem extract_assets_id (groups : List (Option String × String)) (root : XmlNode) :
    ∀ kv ∈ extract_assets groups root, kv.2.id ≠ "" := by
  unfold extract_assets
  have main : ∀ (objs : List XmlNode) (acc : List (String × LeanIXAsset)),
      (∀ kv ∈ acc, kv.2.id ≠ "") →
      ∀ kv ∈ objs.foldl (extract_assets_step groups) acc, kv.2.id ≠ "" := by
    intro objs
    induction objs with
    | nil => intro acc h; exact h
    | cons o os ih =>
      intro acc h kv hkv
      refine ih _ ?_ kv hkv
      intro kv' hkv'
      rcases extract_assets_step_id groups acc o kv' hkv' with h1 | h1
      · exact h kv' h1
      · exact h1
  exact main _ [] (by intro kv hkv; cases hkv)

/-! ## Remaining claim theorems -/

/-- **C3** (amended).  A `factSheet` object node is excluded from the
Entity set exactly when its `id` attribute is missing/empty or it has no
direct `mxCell` child; missing labels and missing external identifiers do
not exclude a node, and every returned Entity has a non-empty `id`. -/
theorem claim_C3_amended :
    (∀ (groups : List (Option String × String)) (obj : XmlNode),
      (parse_asset groups obj).isSome
        = (hasTruthyAttr obj "id" && (obj.find "mxCell").isSome))
    ∧ (∀ (root : XmlNode) (kv : String × LeanIXAsset),
        kv ∈ (extract_all root).assets → kv.2.id ≠ "") := by
  refine ⟨parse_asset_isSome, ?_⟩
  intro root kv hkv
  simp only [extract_all] at hkv
  exact extract_assets_id _ root kv hkv

/-- Witness for the amended C3 at the concrete document `c3root`. -/
theorem claim_C3_amended_witness :
    c3entry ∈ (extract_all c3root).assets ∧ c3entry.2.id ≠ "" :=
  ⟨by decide, claim_C3_amended.2 c3root c3entry (by decide)⟩

/-- **C5** (confirmed).  The confidence merge law: the merged glossary's
case-insensitive keys are the explicit pass's keys followed by the
detected-only keys and are pairwise distinct (each term is emitted exactly
once); a term in both stores is emitted with its explicit-store canonical
spelling and definition, tagged `both`; a term in exactly one store carries
that store's tag; and a key is in the merged output iff it is in the
explicit store or in the detected store (union law). -/
theorem claim_C5_merge_law (candsD candsE : List (String × String)) :
    ((glossaryOf candsD candsE).map (fun e => pyLower e.1)
       = (buildStore candsE).map (·.1)
         ++ ((buildStore candsD).map (·.1)).filter
             (fun k => (alookup (buildStore candsE) k).isNone))
    ∧ ((glossaryOf candsD candsE).map (fun e => pyLower e.1)).Nodup
    ∧ (∀ k t d, alookup (buildStore candsE) k = some (t, d) →
        ((alookup (buildStore candsD) k).isSome = true
          → (t, d, "both") ∈ glossaryOf candsD candsE)
        ∧ ((alookup (buildStore candsD) k).isNone = true
          → (t, d, "explicit") ∈ glossaryOf candsD candsE))
    ∧ (∀ k t d, alookup (buildStore candsE) k = none →
        alookup (buildStore candsD) k = some (t, d) →
        (t, d, "detected") ∈ glossaryOf candsD candsE)
    ∧ (∀ k, k ∈ (glossaryOf candsD candsE).map (fun e => pyLower e.1)
        ↔ ((alookup (buildStore candsE) k).isSome = true
           ∨ (alookup (buildStore candsD) k).isSome = true)) := by
  refine ⟨glossary_keys_eq candsD candsE, glossary_keys_nodup candsD candsE,
    fun k t d h => glossary_mem_explicit candsD candsE k t d h,
    fun k t d hE hD => glossary_mem_detected candsD candsE k t d hE hD, ?_⟩
  intro k
  rw [glossary_keys_eq]
  rw [List.mem_append]
  constructor
  · rintro (h | h)
    · exact Or.inl ((alookup_isSome_iff _ k).mpr h)
    · exact Or.inr ((alookup_isSome_iff _ k).mpr (List.mem_of_mem_filter h))
  · rintro (h | h)
    · exact Or.inl ((alookup_isSome_iff _ k).mp h)
    · by_cases hE : (alookup (buildStore candsE) k).isSome = true
      · exact Or.inl ((alookup_isSome_iff _ k).mp hE)
      · refine Or.inr (List.mem_filter.mpr ⟨(alookup_isSome_iff _ k).mp h, ?_⟩)
        simp [Option.not_isSome_iff_eq_none.mp hE]

/-- Witness for C5: a term found by both passes is emitted tagged `both`. -/
theorem claim_C5_witness :
    alookup (buildStore wCandsE) "club" = some ("Club", wDefn)
    ∧ ("Club", wDefn, "both") ∈ glossaryOf wCandsD wCandsE :=
  ⟨by decide,
    ((claim_C5_merge_law wCandsD wCandsE).2.2.1 "club" "Club" wDefn
      (by decide)).1 (by decide)⟩

/-- **C7** (counterexample).  The detected pass runs first and sees the
spelling `FOO`; the explicit pass later sees `Foo`.  The merge returns the
explicit pass's canonical spelling `Foo`, not the first-seen spelling
`FOO` — so "the canonical spelling is the first-seen spelling" fails
across passes. -/
theorem claim_C7_counterexample :
    glossaryOf c7dCands c7eCands = [("Foo", "0123456789", "both")]
    ∧ firstSeenSpelling (c7dCands ++ c7eCands) "foo" = some "FOO"
    ∧ ¬ ("Foo" = "FOO") := by
  refine ⟨by decide, by decide, by decide⟩

/-- **C7** (amended).  No two returned Definitions share a case-insensitive
term, and each returned canonical spelling/definition is the first
guard-passing candidate of the *pass that provides it*: the explicit
pass's first-seen candidate when the term occurs there, otherwise the
detected pass's first-seen candidate (the explicit spelling wins for terms
found by both passes even though the detected pass runs first). -/
theorem claim_C7_amended (candsD candsE : List (String × String)) :
    ((glossaryOf candsD candsE).map (fun e => pyLower e.1)).Nodup
    ∧ ∀ t d s, (t, d, s) ∈ glossaryOf candsD candsE →
        (firstValid candsE (pyLower t) = some (t, d)
         ∨ (firstValid candsE (pyLower t) = none
            ∧ firstValid candsD (pyLower t) = some (t, d))) := by
  refine ⟨glossary_keys_nodup candsD candsE, ?_⟩
  intro t d s h
  rcases glossary_mem_inv candsD candsE t d s h with h1 | ⟨h1, h2⟩
  · left
    rw [← alookup_buildStore]
    exact h1
  · right
    rw [← alookup_buildStore, ← alookup_buildStore]
    exact ⟨h1, h2⟩

/-- Witness for the amended C7 at a concrete explicit-only run. -/
theorem claim_C7_witness :
    ("Club", wDefn, "explicit") ∈ glossaryOf [] wCandsE
    ∧ (firstValid wCandsE (pyLower "Club") = some ("Club", wDefn)
       ∨ (firstValid wCandsE (pyLower "Club") = none
          ∧ firstValid [] (pyLower "Club") = some ("Club", wDefn))) :=
  ⟨by decide, (claim_C7_amended [] wCandsE).2 "Club" wDefn "explicit" (by decide)⟩

/-- **C9** (confirmed).  `to_section_files` is a pure function of the
extractor's source file name, asset table, and relationship list: two
states agreeing on those three fields produce identical section mappings
(same keys, byte-identical contents) — in particular two calls on one
state agree, and nothing else (no randomness, no clock, not even
`self.groups`) influences the output. -/
theorem claim_C9_idempotent (m₁ m₂ : ExtractorModel)
    (hf : m₁.xmlFileName = m₂.xmlFileName) (ha : m₁.assets = m₂.assets)
    (hr : m₁.relationships = m₂.relationships) :
    to_section_files m₁ = to_section_files m₂
    ∧ (to_section_files m₁).map (·.1) = (to_section_files m₂).map (·.1)
    ∧ ∀ k, alookup (to_section_files m₁) k = alookup (to_section_files m₂) k := by
  have h : to_section_files m₁ = to_section_files m₂ := by
    unfold to_section_files
    rw [hf, ha, hr]
  exact ⟨h, by rw [h], fun k => by rw [h]⟩

/-- Witness for C9 at a concrete extractor state. -/
theorem claim_C9_witness :
    to_section_files c9model = to_section_files c9model
    ∧ alookup (to_section_files c9model) "overview"
        = alookup (to_section_files c9model) "overview" :=
  ⟨(claim_C9_idempotent c9model c9model rfl rfl rfl).1,
   (claim_C9_idempotent c9model c9model rfl rfl rfl).2.2 "overview"⟩

/-- **C10** (confirmed).  A candidate is dropped by `_collect` whenever its
normalized definition text is shorter than 10 or longer than 1500
characters; a fresh-key candidate inside the window — boundaries included —
is stored; and every stored definition text has length in `[10, 1500]`, so
a 5-character text never appears in the output. -/
theorem claim_C10_guard :
    (∀ (store : DefStore) (term defn : String),
      ((normDefn defn).length < 10 ∨ (normDefn defn).length > 1500) →
      collect store term defn = store)
    ∧ (∀ (store : DefStore) (term defn : String),
        10 ≤ (normDefn defn).length → (normDefn defn).length ≤ 1500 →
        alookup store (pyLower (normTerm term)) = none →
        collect store term defn
          = store ++ [(pyLower (normTerm term), normTerm term, normDefn defn)])
    ∧ (∀ (cands : List (String × String)) (e : String × String × String),
        e ∈ buildStore cands → 10 ≤ e.2.2.length ∧ e.2.2.length ≤ 1500) := by
  refine ⟨?_, ?_, ?_⟩
  · intro store term defn h
    simp only [collect]
    rw [if_pos h]
  · intro store term defn h1 h2 h3
    simp only [collect]
    rw [if_neg (by omega)]
    rw [h3]
    rfl
  · intro cands e he
    exact (buildStore_entry_inv cands e he).2

/-- Witness for C10: a 5-character text is rejected; a 10-character
boundary text is kept. -/
theorem claim_C10_witness :
    collect [] "Club" "short" = []
    ∧ collect [] "Club" "0123456789" = [("club", "Club", "0123456789")] :=
  ⟨claim_C10_guard.1 [] "Club" "short" (by decide),
   claim_C10_guard.2.1 [] "Club" "0123456789" (by decide) (by decide) (by decide)⟩

end EltLlmRag
